import Mathlib

/-!
Shallow embedding of `0x02-redis_basic/exercise.py`: a Redis-backed cache
(`Cache`) whose `store` method is wrapped by two decorators, `count_calls`
(outermost) and `call_history` (inner), plus a `replay` diagnostic.

The external Redis store is modelled as a map from keys to values; Redis
keeps the usual string / integer / list value kinds (a counter touched only
by INCR is held in Redis's integer encoding, and GET renders it in decimal,
exactly as the wire protocol does).  Python `bytes` payloads are modelled by
their decoded text, so `decode("utf-8")` is the identity on the payload.
Exceptions are modelled with `Except`; since the Redis mutations live in an
external process, every operation returns the (possibly updated) state
together with an `Except` result, so state changes made before a raised
exception are retained.
-/

/-- The Python value domain of `Cache.store`: `Union[str, bytes, int, float]`.
A `bytes` payload is modelled by its text content. -/
inductive PyData where
  | str (s : String)
  | bytes (b : String)
  | int (n : Int)
  | float (f : Float)

/-- A value held at a Redis key: a plain string, an integer-encoded string
(what INCR produces), or a list (what RPUSH produces). -/
inductive RedisVal where
  | str (s : String)
  | int (n : Int)
  | list (l : List String)
  deriving DecidableEq

/-- Python-level exceptions that the embedded code can raise. -/
inductive PyErr where
  | attrError (msg : String)
  | valueError (msg : String)
  | typeError (msg : String)
  | wrongType
  deriving DecidableEq

/-- The state of the Redis database: each key holds at most one value. -/
def RedisDb : Type := String → Option RedisVal

/-- Point update of the database at one key. -/
def rupdate (s : RedisDb) (k : String) (v : RedisVal) : RedisDb :=
  fun q => if q = k then some v else s q

/-- Value of a decimal digit string, most significant digit first. -/
def pyDigitsVal (cs : List Char) : Nat :=
  cs.foldl (fun a c => a * 10 + (c.toNat - 48)) 0

/-- Parse an optional sign followed by a nonempty digit string, as Python
`int()` does after stripping whitespace. -/
def pyParseIntChars : List Char → Option Int
  | [] => none
  | c :: rest =>
    if c = Char.ofNat 45 then
      if rest ≠ [] ∧ rest.all Char.isDigit then some (-(pyDigitsVal rest : Int)) else none
    else if c = Char.ofNat 43 then
      if rest ≠ [] ∧ rest.all Char.isDigit then some ((pyDigitsVal rest : Int)) else none
    else
      if (c :: rest).all Char.isDigit then some ((pyDigitsVal (c :: rest) : Int)) else none

/-- Strip leading and trailing whitespace, as Python `int()` does. -/
def pyStripChars (cs : List Char) : List Char :=
  ((cs.dropWhile Char.isWhitespace).reverse.dropWhile Char.isWhitespace).reverse

/-- Python `int(x)` on a text/bytes payload: strip whitespace, then an
optional sign and a nonempty base-10 digit string; `none` models the raised
`ValueError` on any other shape. -/
def pyParseInt (s : String) : Option Int :=
  pyParseIntChars (pyStripChars s.toList)

/-- How the Redis client encodes a value passed to SET into the byte string
actually stored: text and bytes are stored as their content, numbers as
their decimal rendering. -/
def redisEncode : PyData → String
  | .str s => s
  | .bytes b => b
  | .int n => toString n
  | .float f => toString f

/-- The single-quote character used by Python `repr` on strings. -/
def pyQuote : Char := Char.ofNat 39

/-- The backslash character. -/
def pyBackslash : Char := Char.ofNat 92

/-- Escaping of one character inside a Python single-quoted `repr`. -/
def pyEscapeChar (c : Char) : String :=
  if c = pyBackslash then String.mk [pyBackslash, pyBackslash]
  else if c = pyQuote then String.mk [pyBackslash, pyQuote]
  else String.singleton c

/-- Python `repr` of a text payload: single-quoted, with escapes. -/
def pyReprQuoted (s : String) : String :=
  String.singleton pyQuote ++ String.join (s.toList.map pyEscapeChar) ++ String.singleton pyQuote

/-- Python `repr` of one value, as it appears inside `str()` of a tuple. -/
def pyRepr : PyData → String
  | .str s => pyReprQuoted s
  | .bytes b => "b" ++ pyReprQuoted b
  | .int n => toString n
  | .float f => toString f

/-- Python `str(args)` where `args` is the positional-argument tuple. -/
def pyStrTuple : List PyData → String
  | [] => "()"
  | [a] => "(" ++ pyRepr a ++ ",)"
  | l => "(" ++ String.intercalate ", " (l.map pyRepr) ++ ")"

/-- Redis SET: stores the encoded byte string at the key, overwriting any
previous value of any kind. -/
def redis_set (s : RedisDb) (k v : String) : RedisDb := rupdate s k (.str v)

/-- Redis GET: `none` when the key is absent, the stored byte string when it
holds a string (an integer-encoded value is rendered in decimal), and a
WRONGTYPE error when it holds a list. -/
def redis_get (s : RedisDb) (k : String) : Except PyErr (Option String) :=
  match s k with
  | none => .ok none
  | some (.str v) => .ok (some v)
  | some (.int n) => .ok (some (toString n))
  | some (.list _) => .error .wrongType

/-- Redis EXISTS. -/
def redis_exists (s : RedisDb) (k : String) : Bool := (s k).isSome

/-- Redis INCR: an absent key is created at 0 then incremented; a string
value must parse as an integer; a list raises WRONGTYPE. -/
def redis_incr (s : RedisDb) (k : String) : RedisDb × Except PyErr Int :=
  match s k with
  | none => (rupdate s k (.int 1), .ok 1)
  | some (.int n) => (rupdate s k (.int (n + 1)), .ok (n + 1))
  | some (.str v) =>
    match pyParseInt v with
    | some n => (rupdate s k (.int (n + 1)), .ok (n + 1))
    | none => (s, .error (.valueError "value is not an integer or out of range"))
  | some (.list _) => (s, .error .wrongType)

/-- Redis RPUSH: appends to the list at the key, creating it if absent; a
non-list value raises WRONGTYPE. -/
def redis_rpush (s : RedisDb) (k v : String) : RedisDb × Except PyErr Nat :=
  match s k with
  | none => (rupdate s k (.list [v]), .ok 1)
  | some (.list l) => (rupdate s k (.list (l ++ [v])), .ok (l.length + 1))
  | some _ => (s, .error .wrongType)

/-- Redis LRANGE key 0 -1: the whole list, the empty list when the key is
absent, WRONGTYPE on a non-list value. -/
def redis_lrangeAll (s : RedisDb) (k : String) : Except PyErr (List String) :=
  match s k with
  | none => .ok []
  | some (.list l) => .ok l
  | some _ => .error .wrongType

/-- Redis FLUSHDB: clears the whole database. -/
def redis_flushdb (_ : RedisDb) : RedisDb := fun _ => none

/-- A `Cache` instance: its private Redis handle `_redis`, plus the stream
of fresh identifiers that successive `uuid.uuid4()` calls will produce
(`uuids` is the oracle, `nextUuid` the index of the next draw). -/
structure CacheState where
  redis : RedisDb
  uuids : Nat → String
  nextUuid : Nat

/-- `self._redis.incr k` as a state transformer on the instance. -/
def CacheState.incr (st : CacheState) (k : String) : CacheState × Except PyErr Int :=
  match redis_incr st.redis k with
  | (r, e) => ({ st with redis := r }, e)

/-- `self._redis.rpush k v` as a state transformer on the instance. -/
def CacheState.rpush (st : CacheState) (k v : String) : CacheState × Except PyErr Nat :=
  match redis_rpush st.redis k v with
  | (r, e) => ({ st with redis := r }, e)

/-- A Python bound-method value: its `__qualname__` attribute and its
behavior on the instance state, a positional-argument tuple and keyword
arguments.  The result pairs the post-call state (Redis effects persist
even when an exception is raised) with the returned value or exception. -/
structure PyMethod (α : Type) where
  qualname : String
  call : CacheState → List PyData → List (String × PyData) → CacheState × Except PyErr α

/-- Python statement sequencing: run the continuation on the result of the
first step unless that step raised, in which case the exception propagates
and the state reached so far is kept. -/
def pyBind {β α : Type} (r : CacheState × Except PyErr β)
    (f : CacheState → β → CacheState × Except PyErr α) : CacheState × Except PyErr α :=
  match r with
  | (s, .error e) => (s, .error e)
  | (s, .ok v) => f s v

/-- The `count_calls` decorator: `key = method.__qualname__`;
`self._redis.incr(key)`; then return what the wrapped method returns.
`@wraps(method)` copies `__qualname__` onto the wrapper. -/
def count_calls {α : Type} (method : PyMethod α) : PyMethod α where
  qualname := method.qualname
  call := fun self args kwargs =>
    pyBind (self.incr method.qualname) (fun s1 _ =>
      method.call s1 args kwargs)

/-- The `call_history` decorator: rpush `str(args)` onto
`<qualname>:inputs`, run the wrapped method, rpush `str(data)` onto
`<qualname>:outputs`, and return `data`.  If the wrapped method raises, the
exception propagates and the output push is skipped. -/
def call_history {α : Type} [ToString α] (method : PyMethod α) : PyMethod α :=
  { qualname := method.qualname
    call := fun self args kwargs =>
      pyBind (self.rpush (method.qualname ++ ":inputs") (pyStrTuple args)) (fun s1 _ =>
        pyBind (method.call s1 args kwargs) (fun s2 data =>
          pyBind (s2.rpush (method.qualname ++ ":outputs") (toString data)) (fun s3 _ =>
            (s3, .ok data)))) }

/-- Python argument binding for the signature `store(self, data)`: one
positional argument, or the single keyword argument `data`; anything else
raises a `TypeError` when the wrapper forwards `*args, **kwargs`. -/
def bindStoreArg (args : List PyData) (kwargs : List (String × PyData)) :
    Except PyErr PyData :=
  match args, kwargs with
  | [d], [] => .ok d
  | [], [kv] =>
    if kv.1 = "data" then .ok kv.2
    else .error (.typeError "store got an unexpected keyword argument")
  | _, _ => .error (.typeError "store takes exactly one data argument")

/-- The raw body of `Cache.store`: `key = str(uuid.uuid4())`;
`self._redis.set(key, data)`; `return key`. -/
def storeRawCall (self : CacheState) (args : List PyData)
    (kwargs : List (String × PyData)) : CacheState × Except PyErr String :=
  match bindStoreArg args kwargs with
  | .error e => (self, .error e)
  | .ok data =>
    let key := self.uuids self.nextUuid
    ({ self with
        redis := redis_set self.redis key (redisEncode data),
        nextUuid := self.nextUuid + 1 },
     .ok key)

/-- The undecorated `Cache.store` method value. -/
def storeRaw : PyMethod String where
  qualname := "Cache.store"
  call := storeRawCall

/-- `Cache.__init__`: `self._redis = redis.Redis()` picks up whatever state
the shared database currently has, and `self._redis.flushdb()` wipes it. -/
def Cache.init (prior : RedisDb) (uuids : Nat → String) : CacheState :=
  { redis := redis_flushdb prior, uuids := uuids, nextUuid := 0 }

/-- `Cache.store` as it exists on the class: `@count_calls` outermost over
`@call_history` over the raw body. -/
def Cache.store : PyMethod String := count_calls (call_history storeRaw)

/-- `Cache.get`: if the key exists, fetch the raw bytes and apply `fn` when
one is supplied, else return the raw bytes; absent keys give `None`
(modelled `.ok none`).  `get` never mutates the store. -/
def Cache.get (self : CacheState) (key : String)
    (fn : Option (String → Except PyErr PyData)) : Except PyErr (Option PyData) :=
  if redis_exists self.redis key then
    match redis_get self.redis key with
    | .error e => .error e
    | .ok none => .ok none
    | .ok (some raw) =>
      match fn with
      | none => .ok (some (.bytes raw))
      | some f =>
        match f raw with
        | .ok v => .ok (some v)
        | .error e => .error e
  else .ok none

/-- The transform `lambda x: x.decode("utf-8")`; byte payloads are modelled
by their decoded text, so this wraps the payload as text. -/
def utf8DecodeFn (raw : String) : Except PyErr PyData := .ok (.str raw)

/-- The transform `int`: Python `int()` on the fetched bytes, raising
`ValueError` when they are not a valid base-10 integer. -/
def intFn (raw : String) : Except PyErr PyData :=
  match pyParseInt raw with
  | some n => .ok (.int n)
  | none => .error (.valueError ("invalid literal for int with base 10: " ++ raw))

/-- `Cache.get_str`. -/
def Cache.get_str (self : CacheState) (key : String) : Except PyErr (Option PyData) :=
  Cache.get self key (some utf8DecodeFn)

/-- `Cache.get_int`. -/
def Cache.get_int (self : CacheState) (key : String) : Except PyErr (Option PyData) :=
  Cache.get self key (some intFn)

/-- Python attribute lookup on a function object: `__qualname__` is present
(copied by `functools.wraps`); any other attribute name raises
`AttributeError`. -/
def functionAttr {α : Type} (m : PyMethod α) (name : String) : Except PyErr String :=
  if name = "__qualname__" then .ok m.qualname
  else .error (.attrError ("function object has no attribute " ++ name))

/-- `.decode("utf-8")` applied to the result of a Redis GET: on `None`
(absent key) Python raises `AttributeError`. -/
def pyDecodeOpt (v : Option String) : Except PyErr String :=
  match v with
  | some b => .ok b
  | none => .error (.attrError "NoneType object has no attribute decode")

/-- The `replay` utility, line by line: `name = method._qualname_` (written
with single underscores in the source, so it is an attribute lookup of the
nonexistent attribute `_qualname_`); `calls = cache.get(name).decode(...)`;
print the header; LRANGE both history lists; print one line per zipped
input/output pair.  The printed lines are returned in order. -/
def replay {α : Type} (m : PyMethod α) (st : CacheState) : Except PyErr (List String) :=
  match functionAttr m "_qualname_" with
  | .error e => .error e
  | .ok name =>
    match redis_get st.redis name with
    | .error e => .error e
    | .ok v =>
      match pyDecodeOpt v with
      | .error e => .error e
      | .ok calls =>
        match redis_lrangeAll st.redis (name ++ ":inputs"),
              redis_lrangeAll st.redis (name ++ ":outputs") with
        | .ok ins, .ok outs =>
          .ok ((name ++ " was called " ++ calls ++ " times:") ::
            (List.zip ins outs).map (fun p => name ++ "(*" ++ p.1 ++ ") -> " ++ p.2))
        | .error e, _ => .error e
        | _, .error e => .error e

/-- Counter view of a key: the integer INCR would see (absent reads as 0,
an integer-encoded value as itself, a plain string through `int()` parsing;
a list has no counter reading). -/
def cval (db : RedisDb) (k : String) : Option Int :=
  match db k with
  | none => some 0
  | some (.int n) => some n
  | some (.str v) => pyParseInt v
  | some (.list _) => none

/-- List view of a key: the sequence RPUSH/LRANGE see (absent reads as the
empty list; a non-list value has no list reading). -/
def lval (db : RedisDb) (k : String) : Option (List String) :=
  match db k with
  | none => some []
  | some (.list l) => some l
  | some _ => none

/-- Run the decorated `Cache.store` once per element of `ds`, each call with
that element as the single positional argument, threading the state. -/
def storeMany (st : CacheState) (ds : List PyData) : CacheState :=
  ds.foldl (fun s d => (Cache.store.call s [d] []).1) st

/-- Modelled from the spec (section 4.2, composition contract): the
reference pipeline for a call to the doubly decorated `Cache.store` —
increment the counter keyed by the operation identity, then append the
serialized positional-argument tuple to the inputs list, then run the raw
store-and-return body, then append the serialized return value to the
outputs list, each exactly once and in that order, returning the raw
body's value; an exception at any stage propagates and skips the later
stages. -/
def specCountedRecordedStore (st : CacheState) (args : List PyData)
    (kwargs : List (String × PyData)) : CacheState × Except PyErr String :=
  pyBind (st.incr "Cache.store") (fun s1 _ =>
    pyBind (s1.rpush "Cache.store:inputs" (pyStrTuple args)) (fun s2 _ =>
      pyBind (storeRawCall s2 args kwargs) (fun s3 ret =>
        pyBind (s3.rpush "Cache.store:outputs" (toString ret)) (fun s4 _ =>
          (s4, .ok ret)))))

/-- A concrete uuid oracle for witnesses: "k0", "k1", ... -/
def exUuids (n : Nat) : String := "k" ++ toString n

/-- A freshly constructed `Cache` over an empty prior database, for
witnesses. -/
def exSt : CacheState := Cache.init (fun _ => none) exUuids

/-- Concrete data list for witnesses. -/
def wDs : List PyData := [PyData.int 5, PyData.int 7]

/-- A concrete database holding a non-numeric payload at "a" and the bytes
of "42" at "b", for witnesses. -/
def wDb : RedisDb :=
  rupdate (rupdate (fun _ => none) "a" (.str "abc")) "b" (.str "42")

/-- A cache instance over `wDb`, for witnesses. -/
def wSt : CacheState := { redis := wDb, uuids := exUuids, nextUuid := 0 }


/-! Basic lemmas about the store model. -/

theorem rupdate_self (s : RedisDb) (k : String) (v : RedisVal) :
    rupdate s k v k = some v := by
  simp [rupdate]

theorem rupdate_ne (s : RedisDb) (k : String) (v : RedisVal) (q : String)
    (h : q ≠ k) : rupdate s k v q = s q := by
  simp [rupdate, h]

theorem pyBind_ok {β α : Type} (s : CacheState) (v : β)
    (f : CacheState → β → CacheState × Except PyErr α) :
    pyBind (s, Except.ok v) f = f s v := rfl

theorem pyBind_err {β α : Type} (s : CacheState) (e : PyErr)
    (f : CacheState → β → CacheState × Except PyErr α) :
    pyBind (s, Except.error e) f = (s, Except.error e) := rfl

theorem toString_str (s : String) : toString s = s := rfl

theorem cval_rupdate_int (db : RedisDb) (k : String) (n : Int) :
    cval (rupdate db k (.int n)) k = some n := by
  simp [cval, rupdate_self]

theorem cval_rupdate_ne (db : RedisDb) (k : String) (v : RedisVal) (q : String)
    (h : q ≠ k) : cval (rupdate db k v) q = cval db q := by
  simp [cval, rupdate_ne _ _ _ _ h]

theorem lval_rupdate_list (db : RedisDb) (k : String) (l : List String) :
    lval (rupdate db k (.list l)) k = some l := by
  simp [lval, rupdate_self]

theorem lval_rupdate_ne (db : RedisDb) (k : String) (v : RedisVal) (q : String)
    (h : q ≠ k) : lval (rupdate db k v) q = lval db q := by
  simp [lval, rupdate_ne _ _ _ _ h]

theorem lval_set_ne (db : RedisDb) (k v : String) (q : String)
    (h : q ≠ k) : lval (redis_set db k v) q = lval db q := by
  simp [redis_set, lval_rupdate_ne _ _ _ _ h]

theorem cval_set_ne (db : RedisDb) (k v : String) (q : String)
    (h : q ≠ k) : cval (redis_set db k v) q = cval db q := by
  simp [redis_set, cval_rupdate_ne _ _ _ _ h]

/-! Characterizations of INCR and RPUSH through the counter and list views. -/

theorem incr_of_cval (st : CacheState) (k : String) (n : Int)
    (h : cval st.redis k = some n) :
    st.incr k = ({ st with redis := rupdate st.redis k (.int (n + 1)) }, .ok (n + 1)) := by
  unfold cval at h
  unfold CacheState.incr redis_incr
  rcases hdb : st.redis k with _ | v
  · rw [hdb] at h
    simp only [Option.some.injEq] at h
    subst h
    simp
  · rcases v with s | m | l
    · rw [hdb] at h
      simp only at h
      rcases hp : pyParseInt s with _ | m
      · rw [hp] at h
        simp at h
      · rw [hp] at h
        simp only [Option.some.injEq] at h
        subst h
        simp [hp]
    · rw [hdb] at h
      simp only [Option.some.injEq] at h
      subst h
      simp
    · rw [hdb] at h
      simp at h

theorem rpush_of_lval (st : CacheState) (k v : String) (l : List String)
    (h : lval st.redis k = some l) :
    st.rpush k v =
      ({ st with redis := rupdate st.redis k (.list (l ++ [v])) }, .ok (l.length + 1)) := by
  unfold lval at h
  unfold CacheState.rpush redis_rpush
  rcases hdb : st.redis k with _ | w
  · rw [hdb] at h
    simp only [Option.some.injEq] at h
    subst h
    simp
  · rcases w with s | m | ll
    · rw [hdb] at h
      simp at h
    · rw [hdb] at h
      simp at h
    · rw [hdb] at h
      simp only [Option.some.injEq] at h
      subst h
      simp

theorem rpush_of_lval_none (st : CacheState) (k v : String)
    (h : lval st.redis k = none) :
    st.rpush k v = (st, .error .wrongType) := by
  unfold lval at h
  unfold CacheState.rpush redis_rpush
  rcases hdb : st.redis k with _ | w
  · rw [hdb] at h
    simp at h
  · rcases w with s | m | ll
    · simp
    · simp
    · rw [hdb] at h
      simp at h

theorem incr_of_cval_none (st : CacheState) (k : String)
    (h : cval st.redis k = none) :
    ∃ e, st.incr k = (st, .error e) := by
  unfold cval at h
  unfold CacheState.incr redis_incr
  rcases hdb : st.redis k with _ | v
  · rw [hdb] at h
    simp at h
  · rcases v with s | m | l
    · rw [hdb] at h
      simp only at h
      rcases hp : pyParseInt s with _ | m
      · exact ⟨.valueError "value is not an integer or out of range", by simp [hp]⟩
      · rw [hp] at h
        simp at h
    · rw [hdb] at h
      simp at h
    · exact ⟨_, rfl⟩

theorem incr_fst_facts (st : CacheState) (k : String) :
    (st.incr k).1.uuids = st.uuids ∧ (st.incr k).1.nextUuid = st.nextUuid ∧
    ∀ q, q ≠ k → (st.incr k).1.redis q = st.redis q := by
  unfold CacheState.incr redis_incr
  rcases st.redis k with _ | v
  · exact ⟨rfl, rfl, fun q hq => rupdate_ne _ _ _ _ hq⟩
  · rcases v with s | m | l
    · rcases hp : pyParseInt s with _ | m
      · exact ⟨by simp [hp], by simp [hp], fun q hq => by simp [hp]⟩
      · exact ⟨by simp [hp], by simp [hp],
          fun q hq => by simp [hp, rupdate_ne _ _ _ _ hq]⟩
    · exact ⟨rfl, rfl, fun q hq => rupdate_ne _ _ _ _ hq⟩
    · exact ⟨rfl, rfl, fun q _ => rfl⟩

theorem rpush_fst_facts (st : CacheState) (k v : String) :
    (st.rpush k v).1.uuids = st.uuids ∧ (st.rpush k v).1.nextUuid = st.nextUuid ∧
    ∀ q, q ≠ k → (st.rpush k v).1.redis q = st.redis q := by
  unfold CacheState.rpush redis_rpush
  rcases st.redis k with _ | w
  · exact ⟨rfl, rfl, fun q hq => rupdate_ne _ _ _ _ hq⟩
  · rcases w with s | m | ll
    · exact ⟨rfl, rfl, fun q _ => rfl⟩
    · exact ⟨rfl, rfl, fun q _ => rfl⟩
    · exact ⟨rfl, rfl, fun q hq => rupdate_ne _ _ _ _ hq⟩

/-! One successful call to the decorated `Cache.store`, in full. -/

theorem store_call_ok (st : CacheState) (d : PyData) (c : Int) (ins outs : List String)
    (hc : cval st.redis "Cache.store" = some c)
    (hi : lval st.redis "Cache.store:inputs" = some ins)
    (ho : lval st.redis "Cache.store:outputs" = some outs)
    (hk3 : st.uuids st.nextUuid ≠ "Cache.store:outputs") :
    Cache.store.call st [d] [] =
      ({ st with
          redis := rupdate (redis_set (rupdate
              (rupdate st.redis "Cache.store" (.int (c + 1)))
              "Cache.store:inputs" (.list (ins ++ [pyStrTuple [d]])))
              (st.uuids st.nextUuid) (redisEncode d))
            "Cache.store:outputs" (.list (outs ++ [st.uuids st.nextUuid])),
          nextUuid := st.nextUuid + 1 },
       .ok (st.uuids st.nextUuid)) := by
  have hstep : Cache.store.call st [d] [] =
      pyBind (st.incr "Cache.store") (fun s1 _ =>
        pyBind (s1.rpush "Cache.store:inputs" (pyStrTuple [d])) (fun s2 _ =>
          pyBind (storeRawCall s2 [d] []) (fun s3 ret =>
            pyBind (s3.rpush "Cache.store:outputs" (toString ret)) (fun s4 _ =>
              (s4, .ok ret))))) := rfl
  have h1 := incr_of_cval st "Cache.store" c hc
  rw [hstep, h1]
  simp only [pyBind_ok]
  have hi1 : lval (rupdate st.redis "Cache.store" (.int (c + 1))) "Cache.store:inputs"
      = some ins := by
    rw [lval_rupdate_ne _ _ _ _ (by decide)]
    exact hi
  have h2 := rpush_of_lval
    { st with redis := rupdate st.redis "Cache.store" (.int (c + 1)) }
    "Cache.store:inputs" (pyStrTuple [d]) ins hi1
  rw [h2]
  simp only [pyBind_ok]
  have h3 : storeRawCall
      { st with redis := rupdate (rupdate st.redis "Cache.store" (.int (c + 1)))
                  "Cache.store:inputs" (.list (ins ++ [pyStrTuple [d]])) }
      [d] [] =
      ({ st with
          redis := redis_set (rupdate (rupdate st.redis "Cache.store" (.int (c + 1)))
            "Cache.store:inputs" (.list (ins ++ [pyStrTuple [d]])))
            (st.uuids st.nextUuid) (redisEncode d),
          nextUuid := st.nextUuid + 1 },
       .ok (st.uuids st.nextUuid)) := rfl
  rw [h3]
  simp only [pyBind_ok, toString_str]
  have ho3 : lval (redis_set (rupdate (rupdate st.redis "Cache.store" (.int (c + 1)))
      "Cache.store:inputs" (.list (ins ++ [pyStrTuple [d]])))
      (st.uuids st.nextUuid) (redisEncode d)) "Cache.store:outputs" = some outs := by
    rw [lval_set_ne _ _ _ _ (Ne.symm hk3),
        lval_rupdate_ne _ _ _ _ (by decide),
        lval_rupdate_ne _ _ _ _ (by decide)]
    exact ho
  have h4 := rpush_of_lval
    { st with
        redis := redis_set (rupdate (rupdate st.redis "Cache.store" (.int (c + 1)))
          "Cache.store:inputs" (.list (ins ++ [pyStrTuple [d]])))
          (st.uuids st.nextUuid) (redisEncode d),
        nextUuid := st.nextUuid + 1 }
    "Cache.store:outputs" (st.uuids st.nextUuid) outs ho3
  rw [h4]
  simp only [pyBind_ok]

theorem store_call_ok_views (st : CacheState) (d : PyData) (c : Int)
    (ins outs : List String)
    (hc : cval st.redis "Cache.store" = some c)
    (hi : lval st.redis "Cache.store:inputs" = some ins)
    (ho : lval st.redis "Cache.store:outputs" = some outs)
    (hk1 : st.uuids st.nextUuid ≠ "Cache.store")
    (hk2 : st.uuids st.nextUuid ≠ "Cache.store:inputs")
    (hk3 : st.uuids st.nextUuid ≠ "Cache.store:outputs") :
    (Cache.store.call st [d] []).2 = .ok (st.uuids st.nextUuid) ∧
    cval (Cache.store.call st [d] []).1.redis "Cache.store" = some (c + 1) ∧
    lval (Cache.store.call st [d] []).1.redis "Cache.store:inputs"
      = some (ins ++ [pyStrTuple [d]]) ∧
    lval (Cache.store.call st [d] []).1.redis "Cache.store:outputs"
      = some (outs ++ [st.uuids st.nextUuid]) ∧
    (Cache.store.call st [d] []).1.uuids = st.uuids ∧
    (Cache.store.call st [d] []).1.nextUuid = st.nextUuid + 1 := by
  rw [store_call_ok st d c ins outs hc hi ho hk3]
  refine ⟨rfl, ?_, ?_, ?_, rfl, rfl⟩
  · show cval (rupdate _ "Cache.store:outputs" _) "Cache.store" = some (c + 1)
    rw [cval_rupdate_ne _ _ _ _ (by decide),
        cval_set_ne _ _ _ _ (Ne.symm hk1),
        cval_rupdate_ne _ _ _ _ (by decide),
        cval_rupdate_int]
  · show lval (rupdate _ "Cache.store:outputs" _) "Cache.store:inputs"
      = some (ins ++ [pyStrTuple [d]])
    rw [lval_rupdate_ne _ _ _ _ (by decide),
        lval_set_ne _ _ _ _ (Ne.symm hk2),
        lval_rupdate_list]
  · show lval (rupdate _ "Cache.store:outputs" _) "Cache.store:outputs"
      = some (outs ++ [st.uuids st.nextUuid])
    rw [lval_rupdate_list]

/-! The state after N calls to the decorated `Cache.store` from any state
whose instrumentation keys are well formed and whose upcoming uuids avoid
the three instrumentation keys. -/

theorem storeMany_ok (ds : List PyData) :
    ∀ (st : CacheState) (c : Int) (ins outs : List String),
      cval st.redis "Cache.store" = some c →
      lval st.redis "Cache.store:inputs" = some ins →
      lval st.redis "Cache.store:outputs" = some outs →
      (∀ i, i < ds.length → st.uuids (st.nextUuid + i) ≠ "Cache.store" ∧
        st.uuids (st.nextUuid + i) ≠ "Cache.store:inputs" ∧
        st.uuids (st.nextUuid + i) ≠ "Cache.store:outputs") →
      cval (storeMany st ds).redis "Cache.store" = some (c + ds.length) ∧
      lval (storeMany st ds).redis "Cache.store:inputs"
        = some (ins ++ ds.map (fun d => pyStrTuple [d])) ∧
      lval (storeMany st ds).redis "Cache.store:outputs"
        = some (outs ++ (List.range ds.length).map (fun i => st.uuids (st.nextUuid + i))) ∧
      (storeMany st ds).uuids = st.uuids ∧
      (storeMany st ds).nextUuid = st.nextUuid + ds.length := by
  induction ds with
  | nil =>
    intro st c ins outs hc hi ho hu
    simpa [storeMany] using ⟨hc, hi, ho⟩
  | cons d ds ih =>
    intro st c ins outs hc hi ho hu
    have hfresh := hu 0 (by simp)
    rw [Nat.add_zero] at hfresh
    have hviews := store_call_ok_views st d c ins outs hc hi ho
      hfresh.1 hfresh.2.1 hfresh.2.2
    have hsm : storeMany st (d :: ds) = storeMany (Cache.store.call st [d] []).1 ds := rfl
    rw [hsm]
    obtain ⟨hret, hc1, hi1, ho1, hu1, hn1⟩ := hviews
    have hu' : ∀ i, i < ds.length →
        (Cache.store.call st [d] []).1.uuids ((Cache.store.call st [d] []).1.nextUuid + i)
          ≠ "Cache.store" ∧
        (Cache.store.call st [d] []).1.uuids ((Cache.store.call st [d] []).1.nextUuid + i)
          ≠ "Cache.store:inputs" ∧
        (Cache.store.call st [d] []).1.uuids ((Cache.store.call st [d] []).1.nextUuid + i)
          ≠ "Cache.store:outputs" := by
      intro i hilt
      rw [hu1, hn1]
      have harith : st.nextUuid + 1 + i = st.nextUuid + (i + 1) := by omega
      rw [harith]
      exact hu (i + 1) (by simpa using Nat.succ_lt_succ hilt)
    obtain ⟨A, B, C, D, E⟩ := ih (Cache.store.call st [d] []).1 (c + 1)
      (ins ++ [pyStrTuple [d]]) (outs ++ [st.uuids st.nextUuid]) hc1 hi1 ho1 hu'
    refine ⟨?_, ?_, ?_, ?_, ?_⟩
    · rw [A]
      congr 1
      simp only [List.length_cons]
      push_cast
      omega
    · rw [B]
      simp [List.append_assoc]
    · rw [C]
      simp only [hu1, hn1, D, E]
      congr 1
      rw [List.append_assoc]
      congr 1
      simp only [List.length_cons]
      rw [List.range_succ_eq_map, List.map_cons, List.map_map, List.singleton_append]
      congr 1
      apply List.map_congr_left
      intro i _
      show st.uuids (st.nextUuid + 1 + i) = st.uuids (st.nextUuid + (i + 1))
      exact congrArg st.uuids (by omega)
    · rw [D, hu1]
    · rw [E, hn1]
      simp only [List.length_cons]
      omega

theorem lval_congr (db1 db2 : RedisDb) (k : String) (h : db1 k = db2 k) :
    lval db1 k = lval db2 k := by
  unfold lval
  rw [h]

theorem lval_set_self (db : RedisDb) (k v : String) :
    lval (redis_set db k v) k = none := by
  simp [redis_set, lval, rupdate_self]

theorem pyBind_fst_const {β α : Type} (p : CacheState × Except PyErr β) (d : α) :
    (pyBind p (fun s _ => (s, Except.ok d))).1 = p.1 := by
  rcases p with ⟨s, r⟩
  cases r <;> rfl

theorem fst_facts_incr (st : CacheState) (k : String) (s1 : CacheState)
    (r : Except PyErr Int) (h : st.incr k = (s1, r)) :
    s1.uuids = st.uuids ∧ s1.nextUuid = st.nextUuid ∧
    ∀ q, q ≠ k → s1.redis q = st.redis q := by
  obtain ⟨a, b, c⟩ := incr_fst_facts st k
  rw [h] at a b c
  exact ⟨a, b, c⟩

theorem fst_facts_rpush (st : CacheState) (k v : String) (s1 : CacheState)
    (r : Except PyErr Nat) (h : st.rpush k v = (s1, r)) :
    s1.uuids = st.uuids ∧ s1.nextUuid = st.nextUuid ∧
    ∀ q, q ≠ k → s1.redis q = st.redis q := by
  obtain ⟨a, b, c⟩ := rpush_fst_facts st k v
  rw [h] at a b c
  exact ⟨a, b, c⟩

/-! The claims. -/

/-- C1: when `Cache.store` is decorated by both wrappers (`count_calls`
outermost, `call_history` inner), every single call is observationally
equal — on the Redis side channels and on the returned value alike — to the
reference pipeline of the spec: increment the counter keyed by the
operation identity, then append the serialized positional-argument tuple to
the inputs list, then run the raw store-and-return body, then append the
serialized return value to the outputs list, each side effect exactly once
per call, in that order, with the raw body's return value handed back
unchanged. -/
theorem c1_composition_pipeline (st : CacheState) (args : List PyData)
    (kwargs : List (String × PyData)) :
    Cache.store.call st args kwargs = specCountedRecordedStore st args kwargs := rfl

/-- C2: the claim says replay on an identity with an absent counter (zero
recorded calls) completes without error, printing a count-0 header and no
transcript lines.  The code instead raises: `replay` reads
`method._qualname_` — single underscores, an attribute that does not exist
on the function — so on a freshly constructed Cache with zero recorded
calls it raises AttributeError before printing anything (and even under the
intended `__qualname__`, the GET of the absent counter returns the absent
value, whose `.decode` raises AttributeError as well). -/
theorem c2_replay_raises_on_zero_calls :
    replay Cache.store exSt
      = .error (.attrError "function object has no attribute _qualname_") := rfl

/-- C3 counterexample: on a fresh Cache, storing the integer 100 and
reading the returned key back with no transform does not return 100 itself;
the raw read returns the byte string "100". -/
theorem c3_counterexample :
    (Cache.store.call exSt [PyData.int 100] []).2 = .ok "k0" ∧
    Cache.get (Cache.store.call exSt [PyData.int 100] []).1 "k0" none
      = .ok (some (.bytes "100")) ∧
    Cache.get (Cache.store.call exSt [PyData.int 100] []).1 "k0" none
      ≠ .ok (some (.int 100)) := by
  refine ⟨rfl, rfl, ?_⟩
  intro h
  have h2 : (Except.ok (some (PyData.bytes "100")) : Except PyErr (Option PyData))
      = .ok (some (PyData.int 100)) := h
  simp at h2

/-- C3 amended: for every valid input `d` and every starting state, when
the decorated `Cache.store` returns a key, reading that key back with no
transform returns the stored record as binary data — the Redis byte
serialization of `d` — so the raw round-trip yields `d` itself exactly when
`d` was binary to begin with. -/
theorem c3_roundtrip_bytes (st : CacheState) (d : PyData) (st' : CacheState)
    (k : String) (h : Cache.store.call st [d] [] = (st', .ok k)) :
    Cache.get st' k none = .ok (some (.bytes (redisEncode d))) := by
  have hstep : Cache.store.call st [d] [] =
      pyBind (st.incr "Cache.store") (fun s1 _ =>
        pyBind (s1.rpush "Cache.store:inputs" (pyStrTuple [d])) (fun s2 _ =>
          pyBind (storeRawCall s2 [d] []) (fun s3 ret =>
            pyBind (s3.rpush "Cache.store:outputs" (toString ret)) (fun s4 _ =>
              (s4, .ok ret))))) := rfl
  rw [hstep] at h
  rcases h1 : st.incr "Cache.store" with ⟨s1, e1 | v1⟩
  · rw [h1, pyBind_err] at h
    simp at h
  · rw [h1] at h
    simp only [pyBind_ok] at h
    rcases h2 : s1.rpush "Cache.store:inputs" (pyStrTuple [d]) with ⟨s2, e2 | v2⟩
    · rw [h2, pyBind_err] at h
      simp at h
    · rw [h2] at h
      simp only [pyBind_ok] at h
      rw [show storeRawCall s2 [d] [] =
          ({ s2 with
              redis := redis_set s2.redis (s2.uuids s2.nextUuid) (redisEncode d),
              nextUuid := s2.nextUuid + 1 },
            .ok (s2.uuids s2.nextUuid)) from rfl] at h
      simp only [pyBind_ok, toString_str] at h
      by_cases hko : s2.uuids s2.nextUuid = "Cache.store:outputs"
      · have hlv : lval ({ s2 with
            redis := redis_set s2.redis (s2.uuids s2.nextUuid) (redisEncode d),
            nextUuid := s2.nextUuid + 1 } : CacheState).redis "Cache.store:outputs" = none := by
          rw [← hko]
          exact lval_set_self _ _ _
        rw [rpush_of_lval_none _ _ _ hlv, pyBind_err] at h
        simp at h
      · rcases h4 : ({ s2 with
            redis := redis_set s2.redis (s2.uuids s2.nextUuid) (redisEncode d),
            nextUuid := s2.nextUuid + 1 } : CacheState).rpush "Cache.store:outputs"
            (s2.uuids s2.nextUuid) with ⟨s4, e4 | v4⟩
        · rw [h4, pyBind_err] at h
          simp at h
        · rw [h4, pyBind_ok] at h
          rw [Prod.mk.injEq] at h
          obtain ⟨hst, hk⟩ := h
          rw [Except.ok.injEq] at hk
          subst hst
          subst hk
          have hpt := (fst_facts_rpush _ _ _ _ _ h4).2.2 (s2.uuids s2.nextUuid) hko
          have hval : s4.redis (s2.uuids s2.nextUuid)
              = some (.str (redisEncode d)) := by
            rw [hpt]
            exact rupdate_self _ _ _
          unfold Cache.get redis_exists redis_get
          simp [hval]

/-- Witness for the amended C3 at a concrete input. -/
theorem c3_roundtrip_bytes_witness :
    Cache.get (Cache.store.call exSt [PyData.str "hi"] []).1 "k0" none
      = .ok (some (.bytes "hi")) :=
  c3_roundtrip_bytes exSt (PyData.str "hi")
    (Cache.store.call exSt [PyData.str "hi"] []).1 "k0" rfl

/-- C4: (i) calling `store` once per element of `ds` on a freshly
constructed Cache leaves the call counter at the operation identity
"Cache.store" equal to exactly the number of calls, for any uuid draw that
avoids the three instrumentation keys (as uuid4 strings do); and (ii) each
increment happens before the wrapped body executes — even on a call whose
body raises, the counter has already advanced by one and is not rolled
back. -/
theorem c4_counter_counts_calls :
    (∀ (prior : RedisDb) (u : Nat → String) (ds : List PyData),
      (∀ i, i < ds.length → u i ≠ "Cache.store" ∧ u i ≠ "Cache.store:inputs" ∧
        u i ≠ "Cache.store:outputs") →
      cval (storeMany (Cache.init prior u) ds).redis "Cache.store"
        = some (ds.length : Int))
  ∧ (∀ (st : CacheState) (args : List PyData) (kwargs : List (String × PyData))
      (e : PyErr) (c : Int),
      bindStoreArg args kwargs = .error e →
      cval st.redis "Cache.store" = some c →
      cval (Cache.store.call st args kwargs).1.redis "Cache.store" = some (c + 1)) := by
  constructor
  · intro prior u ds hu
    have hu' : ∀ i, i < ds.length →
        (Cache.init prior u).uuids ((Cache.init prior u).nextUuid + i) ≠ "Cache.store" ∧
        (Cache.init prior u).uuids ((Cache.init prior u).nextUuid + i) ≠ "Cache.store:inputs" ∧
        (Cache.init prior u).uuids ((Cache.init prior u).nextUuid + i) ≠ "Cache.store:outputs" := by
      intro i hilt
      have hz : (Cache.init prior u).nextUuid + i = i := by
        simp [Cache.init]
      rw [hz]
      exact hu i hilt
    have h := (storeMany_ok ds (Cache.init prior u) 0 [] [] rfl rfl rfl hu').1
    rw [h]
    simp
  · intro st args kwargs e c hb hc
    have hstep : Cache.store.call st args kwargs =
        pyBind (st.incr "Cache.store") (fun s1 _ =>
          pyBind (s1.rpush "Cache.store:inputs" (pyStrTuple args)) (fun s2 _ =>
            pyBind (storeRawCall s2 args kwargs) (fun s3 ret =>
              pyBind (s3.rpush "Cache.store:outputs" (toString ret)) (fun s4 _ =>
                (s4, .ok ret))))) := rfl
    rw [hstep, incr_of_cval st "Cache.store" c hc]
    simp only [pyBind_ok]
    rcases hl : lval (rupdate st.redis "Cache.store" (.int (c + 1))) "Cache.store:inputs"
      with _ | ins
    · rw [rpush_of_lval_none
        { st with redis := rupdate st.redis "Cache.store" (.int (c + 1)) }
        "Cache.store:inputs" (pyStrTuple args) hl, pyBind_err]
      dsimp only
      rw [cval_rupdate_int]
    · rw [rpush_of_lval
        { st with redis := rupdate st.redis "Cache.store" (.int (c + 1)) }
        "Cache.store:inputs" (pyStrTuple args) ins hl]
      simp only [pyBind_ok]
      rw [show storeRawCall
          { st with redis := rupdate (rupdate st.redis "Cache.store" (.int (c + 1)))
                               "Cache.store:inputs" (.list (ins ++ [pyStrTuple args])) }
          args kwargs =
          ({ st with redis := rupdate (rupdate st.redis "Cache.store" (.int (c + 1)))
                                "Cache.store:inputs" (.list (ins ++ [pyStrTuple args])) },
            .error e) from by unfold storeRawCall; rw [hb], pyBind_err]
      dsimp only
      rw [cval_rupdate_ne _ _ _ _ (by decide), cval_rupdate_int]

/-- Witness for C4 at concrete inputs: two stores on a fresh Cache leave
the counter at 2, and a failing call from a fresh Cache still advances the
counter from 0 to 1. -/
theorem c4_counter_counts_calls_witness :
    cval (storeMany (Cache.init (fun _ => none) exUuids) wDs).redis "Cache.store"
      = some ((wDs.length : Nat) : Int) ∧
    cval (Cache.store.call exSt [] []).1.redis "Cache.store" = some (0 + 1) :=
  ⟨c4_counter_counts_calls.1 (fun _ => none) exUuids wDs (by decide),
   c4_counter_counts_calls.2 exSt [] []
     (.typeError "store takes exactly one data argument") 0 rfl rfl⟩

/-- C5: after N completed calls to `store` on a freshly constructed Cache
(one call per element of `ds`), the inputs and outputs sequences each have
length exactly N, the i-th recorded input is the serialized
positional-argument tuple of call i, and the i-th recorded output is the
serialized key returned by call i — order preserved, positionally
aligned. -/
theorem c5_history_parallel (prior : RedisDb) (u : Nat → String) (ds : List PyData)
    (hu : ∀ i, i < ds.length → u i ≠ "Cache.store" ∧ u i ≠ "Cache.store:inputs" ∧
      u i ≠ "Cache.store:outputs") :
    lval (storeMany (Cache.init prior u) ds).redis "Cache.store:inputs"
      = some (ds.map (fun d => pyStrTuple [d])) ∧
    lval (storeMany (Cache.init prior u) ds).redis "Cache.store:outputs"
      = some ((List.range ds.length).map u) ∧
    (ds.map (fun d => pyStrTuple [d])).length = ds.length ∧
    ((List.range ds.length).map u).length = ds.length := by
  have hu' : ∀ i, i < ds.length →
      (Cache.init prior u).uuids ((Cache.init prior u).nextUuid + i) ≠ "Cache.store" ∧
      (Cache.init prior u).uuids ((Cache.init prior u).nextUuid + i) ≠ "Cache.store:inputs" ∧
      (Cache.init prior u).uuids ((Cache.init prior u).nextUuid + i) ≠ "Cache.store:outputs" := by
    intro i hilt
    have hz : (Cache.init prior u).nextUuid + i = i := by
      simp [Cache.init]
    rw [hz]
    exact hu i hilt
  obtain ⟨-, B, C, -, -⟩ := storeMany_ok ds (Cache.init prior u) 0 [] [] rfl rfl rfl hu'
  refine ⟨by simpa using B, ?_, by simp, by simp⟩
  rw [C]
  simp [Cache.init]

/-- Witness for C5 at a concrete input: two stores on a fresh Cache record
exactly the two serialized argument tuples and the two returned keys, in
order. -/
theorem c5_history_parallel_witness :
    lval (storeMany (Cache.init (fun _ => none) exUuids) wDs).redis "Cache.store:inputs"
      = some (wDs.map (fun d => pyStrTuple [d])) ∧
    lval (storeMany (Cache.init (fun _ => none) exUuids) wDs).redis "Cache.store:outputs"
      = some ((List.range wDs.length).map exUuids) ∧
    (wDs.map (fun d => pyStrTuple [d])).length = wDs.length ∧
    ((List.range wDs.length).map exUuids).length = wDs.length :=
  c5_history_parallel (fun _ => none) exUuids wDs (by decide)

/-- C6: constructing a new Cache flushes the entire underlying store: for
every key — stored record, counter, or history list — whatever the prior
database held, after construction the key reports absent. -/
theorem c6_init_flushes (prior : RedisDb) (u : Nat → String) (k : String) :
    (Cache.init prior u).redis k = none ∧
    redis_exists (Cache.init prior u).redis k = false :=
  ⟨rfl, rfl⟩

/-- C7: `get_int` on a key holding bytes that are not a valid base-10
integer representation raises the ValueError of `int()`, propagated to the
caller; on a key holding the bytes of "42" it returns the integer 42. -/
theorem c7_get_int (st : CacheState) (k : String) :
    (∀ raw, st.redis k = some (.str raw) → pyParseInt raw = none →
      Cache.get_int st k
        = .error (.valueError ("invalid literal for int with base 10: " ++ raw))) ∧
    (st.redis k = some (.str "42") → Cache.get_int st k = .ok (some (.int 42))) := by
  constructor
  · intro raw hlook hp
    unfold Cache.get_int Cache.get redis_exists redis_get intFn
    simp [hlook, hp]
  · intro hlook
    unfold Cache.get_int Cache.get redis_exists redis_get intFn
    simp [hlook, show pyParseInt "42" = some 42 from by decide]

/-- Witness for C7 at concrete keys: a key holding "abc" raises, a key
holding "42" returns 42. -/
theorem c7_get_int_witness :
    Cache.get_int wSt "a"
      = .error (.valueError ("invalid literal for int with base 10: " ++ "abc")) ∧
    Cache.get_int wSt "b" = .ok (some (.int 42)) :=
  ⟨(c7_get_int wSt "a").1 "abc" rfl (by decide), (c7_get_int wSt "b").2 rfl⟩

/-- C8: `get` — and therefore `get_str` and `get_int` — on a key that does
not exist in the store returns the distinguishable absent value, not an
exception. -/
theorem c8_absent_key (st : CacheState) (k : String) (h : st.redis k = none) :
    (∀ fn, Cache.get st k fn = .ok none) ∧
    Cache.get_str st k = .ok none ∧ Cache.get_int st k = .ok none := by
  have hg : ∀ fn, Cache.get st k fn = .ok none := by
    intro fn
    unfold Cache.get redis_exists
    simp [h]
  exact ⟨hg, hg _, hg _⟩

/-- Witness for C8 at a concrete never-written key on a fresh Cache. -/
theorem c8_absent_key_witness :
    Cache.get exSt "missing" none = .ok none ∧
    Cache.get_str exSt "missing" = .ok none ∧
    Cache.get_int exSt "missing" = .ok none :=
  ⟨(c8_absent_key exSt "missing" rfl).1 none, (c8_absent_key exSt "missing" rfl).2.1,
   (c8_absent_key exSt "missing" rfl).2.2⟩

/-- C9: when the wrapped body of the decorated `Cache.store` raises (here
through an argument binding that fails, the one way the embedded body can
raise), the exception propagates to the caller, the counter increment for
the call is retained, the appended input record is retained, and no output
record is appended — so the outputs sequence ends up exactly one element
shorter than the inputs sequence for that call. -/
theorem c9_body_raises (st : CacheState) (args : List PyData)
    (kwargs : List (String × PyData)) (e : PyErr) (c : Int) (ins outs : List String)
    (hb : bindStoreArg args kwargs = .error e)
    (hc : cval st.redis "Cache.store" = some c)
    (hi : lval st.redis "Cache.store:inputs" = some ins)
    (ho : lval st.redis "Cache.store:outputs" = some outs) :
    (Cache.store.call st args kwargs).2 = .error e ∧
    cval (Cache.store.call st args kwargs).1.redis "Cache.store" = some (c + 1) ∧
    lval (Cache.store.call st args kwargs).1.redis "Cache.store:inputs"
      = some (ins ++ [pyStrTuple args]) ∧
    lval (Cache.store.call st args kwargs).1.redis "Cache.store:outputs" = some outs ∧
    (ins.length = outs.length →
      (ins ++ [pyStrTuple args]).length = outs.length + 1) := by
  have hstep : Cache.store.call st args kwargs =
      pyBind (st.incr "Cache.store") (fun s1 _ =>
        pyBind (s1.rpush "Cache.store:inputs" (pyStrTuple args)) (fun s2 _ =>
          pyBind (storeRawCall s2 args kwargs) (fun s3 ret =>
            pyBind (s3.rpush "Cache.store:outputs" (toString ret)) (fun s4 _ =>
              (s4, .ok ret))))) := rfl
  have hi1 : lval (rupdate st.redis "Cache.store" (.int (c + 1))) "Cache.store:inputs"
      = some ins := by
    rw [lval_rupdate_ne _ _ _ _ (by decide)]
    exact hi
  rw [hstep, incr_of_cval st "Cache.store" c hc]
  simp only [pyBind_ok]
  rw [rpush_of_lval { st with redis := rupdate st.redis "Cache.store" (.int (c + 1)) }
      "Cache.store:inputs" (pyStrTuple args) ins hi1]
  simp only [pyBind_ok]
  rw [show storeRawCall
      { st with redis := rupdate (rupdate st.redis "Cache.store" (.int (c + 1)))
                           "Cache.store:inputs" (.list (ins ++ [pyStrTuple args])) }
      args kwargs =
      ({ st with redis := rupdate (rupdate st.redis "Cache.store" (.int (c + 1)))
                            "Cache.store:inputs" (.list (ins ++ [pyStrTuple args])) },
        .error e) from by unfold storeRawCall; rw [hb], pyBind_err]
  dsimp only
  refine ⟨rfl, ?_, ?_, ?_, ?_⟩
  · rw [cval_rupdate_ne _ _ _ _ (by decide), cval_rupdate_int]
  · rw [lval_rupdate_list]
  · rw [lval_rupdate_ne _ _ _ _ (by decide), lval_rupdate_ne _ _ _ _ (by decide)]
    exact ho
  · intro hlen
    simp [hlen]

/-- Witness for C9: calling the decorated store with no arguments on a
fresh Cache raises TypeError, yet counts the call and records its input,
with no output recorded. -/
theorem c9_body_raises_witness :
    (Cache.store.call exSt [] []).2
      = .error (.typeError "store takes exactly one data argument") ∧
    cval (Cache.store.call exSt [] []).1.redis "Cache.store" = some (0 + 1) ∧
    lval (Cache.store.call exSt [] []).1.redis "Cache.store:inputs"
      = some ([] ++ [pyStrTuple []]) ∧
    lval (Cache.store.call exSt [] []).1.redis "Cache.store:outputs" = some [] ∧
    (([] : List String).length = ([] : List String).length →
      (([] : List String) ++ [pyStrTuple []]).length = ([] : List String).length + 1) :=
  c9_body_raises exSt [] [] (.typeError "store takes exactly one data argument")
    0 [] [] rfl rfl rfl rfl

/-- C10: the history wrapper serializes and appends only the
positional-argument tuple — keyword arguments never appear in the recorded
history.  Two calls to the decorated `Cache.store` from the same state that
differ only in their keyword arguments leave identical inputs sequences,
and a successful call appends exactly the serialization of its positional
tuple as the single new input record. -/
theorem c10_kwargs_not_recorded (st : CacheState) (args : List PyData)
    (kw kw' : List (String × PyData))
    (hfresh : st.uuids st.nextUuid ≠ "Cache.store:inputs") :
    lval (Cache.store.call st args kw).1.redis "Cache.store:inputs"
      = lval (Cache.store.call st args kw').1.redis "Cache.store:inputs" ∧
    (∀ ins, lval st.redis "Cache.store:inputs" = some ins →
      ∀ st' r, Cache.store.call st args kw = (st', .ok r) →
        lval st'.redis "Cache.store:inputs" = some (ins ++ [pyStrTuple args])) := by
  have hstep : ∀ kw0 : List (String × PyData), Cache.store.call st args kw0 =
      pyBind (st.incr "Cache.store") (fun s1 _ =>
        pyBind (s1.rpush "Cache.store:inputs" (pyStrTuple args)) (fun s2 _ =>
          pyBind (storeRawCall s2 args kw0) (fun s3 ret =>
            pyBind (s3.rpush "Cache.store:outputs" (toString ret)) (fun s4 _ =>
              (s4, .ok ret))))) := fun _ => rfl
  rcases h1 : st.incr "Cache.store" with ⟨s1, e1 | v1⟩
  · constructor
    · simp only [hstep kw, hstep kw', h1, pyBind_err]
    · intro ins hins st' r hcall
      rw [hstep kw, h1, pyBind_err] at hcall
      simp at hcall
  · obtain ⟨hu1, hn1, hr1⟩ := fst_facts_incr st "Cache.store" s1 (.ok v1) h1
    rcases h2 : s1.rpush "Cache.store:inputs" (pyStrTuple args) with ⟨s2, e2 | v2⟩
    · constructor
      · simp only [hstep kw, hstep kw', h1, pyBind_ok, h2, pyBind_err]
      · intro ins hins st' r hcall
        rw [hstep kw, h1] at hcall
        simp only [pyBind_ok] at hcall
        rw [h2, pyBind_err] at hcall
        simp at hcall
    · obtain ⟨hu2, hn2, hr2⟩ :=
        fst_facts_rpush s1 "Cache.store:inputs" (pyStrTuple args) s2 (.ok v2) h2
      have hkne : "Cache.store:inputs" ≠ s2.uuids s2.nextUuid := by
        rw [hu2, hn2, hu1, hn1]
        exact Ne.symm hfresh
      have hrest : ∀ kw0 : List (String × PyData),
          lval (pyBind (storeRawCall s2 args kw0) (fun s3 ret =>
            pyBind (s3.rpush "Cache.store:outputs" (toString ret)) (fun s4 _ =>
              (s4, .ok ret)))).1.redis "Cache.store:inputs"
            = lval s2.redis "Cache.store:inputs" := by
        intro kw0
        rcases hb : bindStoreArg args kw0 with e3 | d
        · rw [show storeRawCall s2 args kw0 = (s2, .error e3)
              from by unfold storeRawCall; rw [hb], pyBind_err]
        · rw [show storeRawCall s2 args kw0 =
              ({ s2 with
                  redis := redis_set s2.redis (s2.uuids s2.nextUuid) (redisEncode d),
                  nextUuid := s2.nextUuid + 1 }, .ok (s2.uuids s2.nextUuid))
              from by unfold storeRawCall; rw [hb]]
          simp only [pyBind_ok, toString_str]
          rw [pyBind_fst_const]
          have hpt := (rpush_fst_facts
            { s2 with
                redis := redis_set s2.redis (s2.uuids s2.nextUuid) (redisEncode d),
                nextUuid := s2.nextUuid + 1 }
            "Cache.store:outputs" (s2.uuids s2.nextUuid)).2.2 "Cache.store:inputs" (by decide)
          refine lval_congr _ _ _ (hpt.trans ?_)
          exact rupdate_ne _ _ _ _ hkne
      constructor
      · simp only [hstep kw, hstep kw', h1, pyBind_ok, h2]
        rw [hrest kw, hrest kw']
      · intro ins hins st' r hcall
        rw [hstep kw, h1] at hcall
        simp only [pyBind_ok] at hcall
        rw [h2] at hcall
        simp only [pyBind_ok] at hcall
        have hs2val : lval s2.redis "Cache.store:inputs"
            = some (ins ++ [pyStrTuple args]) := by
          have hins1 : lval s1.redis "Cache.store:inputs" = some ins := by
            rw [lval_congr _ _ _ (hr1 "Cache.store:inputs" (by decide))]
            exact hins
          have h2' := h2
          rw [rpush_of_lval s1 "Cache.store:inputs" (pyStrTuple args) ins hins1] at h2'
          rw [Prod.mk.injEq] at h2'
          obtain ⟨hs2eq, -⟩ := h2'
          rw [← hs2eq]
          exact lval_rupdate_list _ _ _
        rcases hb : bindStoreArg args kw with e3 | d
        · rw [show storeRawCall s2 args kw = (s2, .error e3)
              from by unfold storeRawCall; rw [hb], pyBind_err] at hcall
          simp at hcall
        · rw [show storeRawCall s2 args kw =
              ({ s2 with
                  redis := redis_set s2.redis (s2.uuids s2.nextUuid) (redisEncode d),
                  nextUuid := s2.nextUuid + 1 }, .ok (s2.uuids s2.nextUuid))
              from by unfold storeRawCall; rw [hb]] at hcall
          simp only [pyBind_ok, toString_str] at hcall
          rcases h4 : ({ s2 with
              redis := redis_set s2.redis (s2.uuids s2.nextUuid) (redisEncode d),
              nextUuid := s2.nextUuid + 1 } : CacheState).rpush "Cache.store:outputs"
              (s2.uuids s2.nextUuid) with ⟨s4, e4 | v4⟩
          · rw [h4, pyBind_err] at hcall
            simp at hcall
          · rw [h4, pyBind_ok] at hcall
            rw [Prod.mk.injEq] at hcall
            obtain ⟨hst4, -⟩ := hcall
            subst hst4
            have hpt := (fst_facts_rpush _ _ _ _ _ h4).2.2 "Cache.store:inputs" (by decide)
            rw [lval_congr _ _ _ (hpt.trans (rupdate_ne _ _ _ _ hkne))]
            exact hs2val

/-- Witness for C10: a call with no keyword arguments and a call with a
spurious keyword argument record the same input history on a fresh Cache,
and the successful call appends exactly the serialized one-element tuple. -/
theorem c10_kwargs_not_recorded_witness :
    lval (Cache.store.call exSt [PyData.int 1] []).1.redis "Cache.store:inputs"
      = lval (Cache.store.call exSt [PyData.int 1] [("extra", PyData.int 2)]).1.redis
          "Cache.store:inputs" ∧
    (∀ ins, lval exSt.redis "Cache.store:inputs" = some ins →
      ∀ st' r, Cache.store.call exSt [PyData.int 1] [] = (st', .ok r) →
        lval st'.redis "Cache.store:inputs" = some (ins ++ [pyStrTuple [PyData.int 1]])) :=
  c10_kwargs_not_recorded exSt [PyData.int 1] [] [("extra", PyData.int 2)] (by decide)
